import Mathlib

/-!
Verification development for the `sn_routing` execution core:
the deferred-effect command engine (`Context` / `Command`, from
`src/src/node/context.rs`) and the traffic-accounting subsystem
(`Stats`, from `src/src/stats.rs`), shallowly embedded in Lean.

External standard-library types (`std::net::SocketAddr`, `bytes::Bytes`,
`std::time::Duration`) are modelled as opaque wrappers around `Nat` /
`List Nat`: the code under verification never inspects their contents.
Machine integers (`usize`, `u64`, `u8`) are modelled as `Nat`; the
counters in question only ever grow by small increments and the claims
under study do not concern wrap-around behaviour.
-/

/-- Opaque network address (`std::net::SocketAddr` in the source). -/
structure SocketAddr where
  addr : Nat
deriving DecidableEq, Repr

/-- Opaque message payload (`bytes::Bytes` in the source). -/
structure Bytes where
  payload : List Nat
deriving DecidableEq, Repr

/-- Opaque time span (`std::time::Duration` in the source), in milliseconds. -/
structure Duration where
  millis : Nat
deriving DecidableEq, Repr

/-- Modelled from the spec: the `Command` enum lives outside `src/`
(`src/src/node/context.rs` only imports it as `super::Command`); the spec
describes it as an extensible tagged union of deferred effects of which
exactly two variants are evidenced — `SendMessage { recipients,
delivery_group_size, message }` and `ScheduleTimeout { duration, token }`.
Only those two variants are modelled, matching the constructors used by
`Context`. -/
inductive Command where
  | SendMessage (recipients : List SocketAddr) (delivery_group_size : Nat)
      (message : Bytes)
  | ScheduleTimeout (duration : Duration) (token : Nat)
deriving DecidableEq, Repr

/-- The per-invocation command accumulator from `src/src/node/context.rs`.
The source struct also owns `event_tx : mpsc::UnboundedSender<Event>`, a
handle to an external event channel; it is not part of the command-queue
state (no `Context` method reads it back) and is omitted here. -/
structure Context where
  command_queue : List Command
deriving DecidableEq, Repr

/-- Method `Context::new`: an empty command queue. -/
def Context.new : Context :=
  { command_queue := [] }

/-- Method `Context::push_command`: append `command` to the tail of the queue
(`Vec::push`). -/
def Context.push_command (ctx : Context) (command : Command) : Context :=
  { ctx with command_queue := ctx.command_queue ++ [command] }

/-- Method `Context::send_message_to_targets`: build and push a
`Command::SendMessage` (`recipients.to_vec()` copies the slice). -/
def Context.send_message_to_targets (ctx : Context) (recipients : List SocketAddr)
    (delivery_group_size : Nat) (message : Bytes) : Context :=
  ctx.push_command (Command.SendMessage recipients delivery_group_size message)

/-- Method `Context::send_message_to_target`: delegates to
`send_message_to_targets(slice::from_ref(recipient), 1, message)`, i.e. the
one-element recipient list. -/
def Context.send_message_to_target (ctx : Context) (recipient : SocketAddr)
    (message : Bytes) : Context :=
  ctx.send_message_to_targets [recipient] 1 message

/-- Method `Context::schedule_timeout`: draw the next token from the process-wide
allocator (`NEXT_TIMER_TOKEN.fetch_add(1)` returns the pre-increment value),
push a `Command::ScheduleTimeout` with that token and `duration`, and return
the token. The global atomic is threaded explicitly: `tok` is the allocator
state before the call; the result is (updated context, updated allocator
state, returned token). -/
def Context.schedule_timeout (ctx : Context) (tok : Nat) (duration : Duration) :
    Context × Nat × Nat :=
  (ctx.push_command (Command.ScheduleTimeout duration tok), tok + 1, tok)

/-- Method `Context::into_commands`: yield the accumulated queue. -/
def Context.into_commands (ctx : Context) : List Command :=
  ctx.command_queue

/-- One call to a `Context` method that pushes a command: the four
queue-growing entry points of `src/src/node/context.rs`. -/
inductive ContextOp where
  | push_command (command : Command)
  | send_message_to_target (recipient : SocketAddr) (message : Bytes)
  | send_message_to_targets (recipients : List SocketAddr)
      (delivery_group_size : Nat) (message : Bytes)
  | schedule_timeout (duration : Duration)
deriving DecidableEq, Repr

/-- Run a sequence of `Context` calls, threading the allocator state. -/
def Context.run (ctx : Context) (tok : Nat) : List ContextOp → Context × Nat
  | [] => (ctx, tok)
  | ContextOp.push_command c :: ops => (ctx.push_command c).run tok ops
  | ContextOp.send_message_to_target r m :: ops =>
      (ctx.send_message_to_target r m).run tok ops
  | ContextOp.send_message_to_targets rs n m :: ops =>
      (ctx.send_message_to_targets rs n m).run tok ops
  | ContextOp.schedule_timeout d :: ops =>
      match ctx.schedule_timeout tok d with
      | (ctx2, tok2, _) => ctx2.run tok2 ops

/-- The command each call pushes, in call order, with the allocator state
threaded through the `schedule_timeout` calls. -/
def expectedCommands (tok : Nat) : List ContextOp → List Command
  | [] => []
  | ContextOp.push_command c :: ops => c :: expectedCommands tok ops
  | ContextOp.send_message_to_target r m :: ops =>
      Command.SendMessage [r] 1 m :: expectedCommands tok ops
  | ContextOp.send_message_to_targets rs n m :: ops =>
      Command.SendMessage rs n m :: expectedCommands tok ops
  | ContextOp.schedule_timeout d :: ops =>
      Command.ScheduleTimeout d tok :: expectedCommands (tok + 1) ops

/-- Run a sequence of `schedule_timeout` calls on one `Context`, collecting
the returned tokens in call order. -/
def Context.runTimeouts (ctx : Context) (tok : Nat) :
    List Duration → Context × Nat × List Nat
  | [] => (ctx, tok, [])
  | d :: ds =>
      match ctx.schedule_timeout tok d with
      | (ctx2, tok2, t) =>
          match ctx2.runTimeouts tok2 ds with
          | (ctx3, tok3, ts) => (ctx3, tok3, t :: ts)

/-- Modelled from the spec: the `Request` enum of the `messages` module is
not under `src/`; its variants are pinned by the exhaustive (wildcard-free)
match in `Stats::count_request` (`src/src/stats.rs` lines 88-95): `Refresh`,
`Get`, `Put`, `Post`, `Delete`, `GetAccountInfo`. Variant payloads are never
inspected by `Stats` and are elided. -/
inductive Request where
  | Refresh
  | Get
  | Put
  | Post
  | Delete
  | GetAccountInfo
deriving DecidableEq, Repr

/-- Modelled from the spec: the `Response` enum of the `messages` module is
not under `src/`; its variants are pinned by the exhaustive match in
`Stats::count_response` (`src/src/stats.rs` lines 101-112) — the five
operation kinds crossed with success/failure. Payloads are elided. -/
inductive Response where
  | GetSuccess
  | GetFailure
  | PutSuccess
  | PutFailure
  | PostSuccess
  | PostFailure
  | DeleteSuccess
  | DeleteFailure
  | GetAccountInfoSuccess
  | GetAccountInfoFailure
deriving DecidableEq, Repr

/-- Modelled from the spec: the `MessageContent` enum of the `messages`
module is not under `src/`; its variants are pinned by the exhaustive match
in `Stats::count_routing_message` (`src/src/stats.rs` lines 118-128),
`UserMessagePart` being the fragment of a larger user message. Payloads are
elided. -/
inductive MessageContent where
  | GetNodeName
  | ExpectCloseNode
  | GetCloseGroup
  | ConnectionInfo
  | GetCloseGroupResponse
  | GetNodeNameResponse
  | Ack
  | GroupMessageHash
  | UserMessagePart
deriving DecidableEq, Repr

/-- Modelled from the spec: the `RoutingMessage` struct of the `messages`
module is not under `src/`; `Stats::count_routing_message` reads only its
`content` field, so only that field is modelled. -/
structure RoutingMessage where
  content : MessageContent
deriving DecidableEq, Repr

/-- Modelled from the spec: the `DirectMessage` enum of the `messages`
module is not under `src/`; `Stats::count_direct_message` names three
variants (`NodeIdentify`, `NewNode`, `ConnectionUnneeded`) and sends every
other variant to the catch-all arm, so the remaining, unknown variants are
collapsed into a single `Other` constructor. Payloads are elided. -/
inductive DirectMessage where
  | NodeIdentify
  | NewNode
  | ConnectionUnneeded
  | Other
deriving DecidableEq, Repr

/-- Constant `MSG_LOG_COUNT`: the number of messages after which the message
statistics are printed (`src/src/stats.rs` line 22). -/
def MSG_LOG_COUNT : Nat := 500

/-- The `Stats` struct of `src/src/stats.rs`, field for field. `routes` is
the `[usize; GROUP_SIZE]` array of the source (`GROUP_SIZE` is an external
constant of the `core` module, not under `src/`), modelled as a `List Nat`
whose length is the configured group size. -/
structure Stats where
  cur_routing_table_size : Nat
  cur_client_num : Nat
  cumulative_client_num : Nat
  tunnel_client_pairs : Nat
  tunnel_connections : Nat
  routes : List Nat
  unacked_msgs : Nat
  msg_direct_node_identify : Nat
  msg_direct_new_node : Nat
  msg_direct_connection_unneeded : Nat
  msg_get : Nat
  msg_put : Nat
  msg_post : Nat
  msg_delete : Nat
  msg_get_account_info : Nat
  msg_get_close_group : Nat
  msg_get_node_name : Nat
  msg_expect_close_node : Nat
  msg_refresh : Nat
  msg_connection_info : Nat
  msg_get_success : Nat
  msg_get_failure : Nat
  msg_put_success : Nat
  msg_put_failure : Nat
  msg_post_success : Nat
  msg_post_failure : Nat
  msg_delete_success : Nat
  msg_delete_failure : Nat
  msg_get_account_info_success : Nat
  msg_get_account_info_failure : Nat
  msg_get_close_group_rsp : Nat
  msg_get_node_name_rsp : Nat
  msg_ack : Nat
  msg_hash : Nat
  msg_other : Nat
  msg_total : Nat
  msg_total_bytes : Nat
deriving DecidableEq, Repr

/-- Function `Stats::default()` (derived via `#[derive(Default)]`): every counter zero; the route
array has one zeroed slot per route index up to the configured group size
`gs` (the `core::GROUP_SIZE` constant of the source, whose defining module is not under
`src/`, so the size is kept as a parameter). -/
def Stats.mkDefault (gs : Nat) : Stats where
  cur_routing_table_size := 0
  cur_client_num := 0
  cumulative_client_num := 0
  tunnel_client_pairs := 0
  tunnel_connections := 0
  routes := List.replicate gs 0
  unacked_msgs := 0
  msg_direct_node_identify := 0
  msg_direct_new_node := 0
  msg_direct_connection_unneeded := 0
  msg_get := 0
  msg_put := 0
  msg_post := 0
  msg_delete := 0
  msg_get_account_info := 0
  msg_get_close_group := 0
  msg_get_node_name := 0
  msg_expect_close_node := 0
  msg_refresh := 0
  msg_connection_info := 0
  msg_get_success := 0
  msg_get_failure := 0
  msg_put_success := 0
  msg_put_failure := 0
  msg_post_success := 0
  msg_post_failure := 0
  msg_delete_success := 0
  msg_delete_failure := 0
  msg_get_account_info_success := 0
  msg_get_account_info_failure := 0
  msg_get_close_group_rsp := 0
  msg_get_node_name_rsp := 0
  msg_ack := 0
  msg_hash := 0
  msg_other := 0
  msg_total := 0
  msg_total_bytes := 0

/-- Method `Stats::count_unacked`: `self.unacked_msgs += 1`. -/
def Stats.count_unacked (s : Stats) : Stats :=
  { s with unacked_msgs := s.unacked_msgs + 1 }

/-- Method `Stats::count_route`: `self.routes.get_mut(route as usize)` — in bounds,
increment that slot; out of bounds, `error!` (a diagnostic log line, no
state change). The source takes the route as a `u8` and widens it
losslessly to `usize`; it is modelled as `Nat`. -/
def Stats.count_route (s : Stats) (route : Nat) : Stats :=
  match s.routes[route]? with
  | some count => { s with routes := s.routes.set route (count + 1) }
  | none => s

/-- Method `Stats::increment_msg_total`: increment the aggregate counter and, when
it is an exact multiple of `MSG_LOG_COUNT`, emit the multi-part log snapshot
(four `info!` lines reading every counter group, writing none). The returned
`Bool` records whether the snapshot was emitted by this call. -/
def Stats.increment_msg_total (s : Stats) : Stats × Bool :=
  let s2 := { s with msg_total := s.msg_total + 1 }
  (s2, s2.msg_total % MSG_LOG_COUNT == 0)

/-- Method `Stats::count_request`: bump the matching per-kind counter, then
`increment_msg_total`. -/
def Stats.count_request (s : Stats) (request : Request) : Stats × Bool :=
  let s2 :=
    match request with
    | Request.Refresh => { s with msg_refresh := s.msg_refresh + 1 }
    | Request.Get => { s with msg_get := s.msg_get + 1 }
    | Request.Put => { s with msg_put := s.msg_put + 1 }
    | Request.Post => { s with msg_post := s.msg_post + 1 }
    | Request.Delete => { s with msg_delete := s.msg_delete + 1 }
    | Request.GetAccountInfo =>
        { s with msg_get_account_info := s.msg_get_account_info + 1 }
  s2.increment_msg_total

/-- Method `Stats::count_response`: bump the matching per-kind counter, then
`increment_msg_total`. -/
def Stats.count_response (s : Stats) (response : Response) : Stats × Bool :=
  let s2 :=
    match response with
    | Response.GetSuccess => { s with msg_get_success := s.msg_get_success + 1 }
    | Response.GetFailure => { s with msg_get_failure := s.msg_get_failure + 1 }
    | Response.PutSuccess => { s with msg_put_success := s.msg_put_success + 1 }
    | Response.PutFailure => { s with msg_put_failure := s.msg_put_failure + 1 }
    | Response.PostSuccess => { s with msg_post_success := s.msg_post_success + 1 }
    | Response.PostFailure => { s with msg_post_failure := s.msg_post_failure + 1 }
    | Response.DeleteSuccess =>
        { s with msg_delete_success := s.msg_delete_success + 1 }
    | Response.DeleteFailure =>
        { s with msg_delete_failure := s.msg_delete_failure + 1 }
    | Response.GetAccountInfoSuccess =>
        { s with msg_get_account_info_success := s.msg_get_account_info_success + 1 }
    | Response.GetAccountInfoFailure =>
        { s with msg_get_account_info_failure := s.msg_get_account_info_failure + 1 }
  s2.increment_msg_total

/-- Method `Stats::count_routing_message`: bump the matching per-kind counter and
`increment_msg_total` — except `UserMessagePart`, which returns early
(`return // Counted as request/response.`), touching nothing and never
reaching `increment_msg_total`. -/
def Stats.count_routing_message (s : Stats) (msg : RoutingMessage) : Stats × Bool :=
  match msg.content with
  | MessageContent.GetNodeName =>
      { s with msg_get_node_name := s.msg_get_node_name + 1 }.increment_msg_total
  | MessageContent.ExpectCloseNode =>
      { s with msg_expect_close_node := s.msg_expect_close_node + 1 }.increment_msg_total
  | MessageContent.GetCloseGroup =>
      { s with msg_get_close_group := s.msg_get_close_group + 1 }.increment_msg_total
  | MessageContent.ConnectionInfo =>
      { s with msg_connection_info := s.msg_connection_info + 1 }.increment_msg_total
  | MessageContent.GetCloseGroupResponse =>
      { s with msg_get_close_group_rsp := s.msg_get_close_group_rsp + 1 }.increment_msg_total
  | MessageContent.GetNodeNameResponse =>
      { s with msg_get_node_name_rsp := s.msg_get_node_name_rsp + 1 }.increment_msg_total
  | MessageContent.Ack =>
      { s with msg_ack := s.msg_ack + 1 }.increment_msg_total
  | MessageContent.GroupMessageHash =>
      { s with msg_hash := s.msg_hash + 1 }.increment_msg_total
  | MessageContent.UserMessagePart => (s, false)

/-- Method `Stats::count_direct_message`: bump the matching per-kind counter (the
wildcard arm bumps `msg_other`), then `increment_msg_total`. -/
def Stats.count_direct_message (s : Stats) (msg : DirectMessage) : Stats × Bool :=
  let s2 :=
    match msg with
    | DirectMessage.NodeIdentify =>
        { s with msg_direct_node_identify := s.msg_direct_node_identify + 1 }
    | DirectMessage.NewNode =>
        { s with msg_direct_new_node := s.msg_direct_new_node + 1 }
    | DirectMessage.ConnectionUnneeded =>
        { s with msg_direct_connection_unneeded := s.msg_direct_connection_unneeded + 1 }
    | DirectMessage.Other => { s with msg_other := s.msg_other + 1 }
  s2.increment_msg_total

/-- Method `Stats::count_bytes`: `self.msg_total_bytes += len as u64`. -/
def Stats.count_bytes (s : Stats) (len : Nat) : Stats :=
  { s with msg_total_bytes := s.msg_total_bytes + len }

/-- One call to a `Stats` counting operation: the seven public entry points
of `src/src/stats.rs`. -/
inductive StatsOp where
  | count_unacked
  | count_route (route : Nat)
  | count_request (request : Request)
  | count_response (response : Response)
  | count_routing_message (msg : RoutingMessage)
  | count_direct_message (msg : DirectMessage)
  | count_bytes (len : Nat)
deriving DecidableEq, Repr

/-- Apply one counting call; the `Bool` records whether the call emitted the
periodic log snapshot (only `increment_msg_total` contains the `info!`
snapshot, and only the four classification entry points reach it). -/
def Stats.apply (s : Stats) : StatsOp → Stats × Bool
  | StatsOp.count_unacked => (s.count_unacked, false)
  | StatsOp.count_route route => (s.count_route route, false)
  | StatsOp.count_request request => s.count_request request
  | StatsOp.count_response response => s.count_response response
  | StatsOp.count_routing_message msg => s.count_routing_message msg
  | StatsOp.count_direct_message msg => s.count_direct_message msg
  | StatsOp.count_bytes len => (s.count_bytes len, false)

/-- Run a sequence of counting calls. -/
def Stats.run (s : Stats) : List StatsOp → Stats
  | [] => s
  | op :: ops => (s.apply op).1.run ops

/-- Classification calls: the four entry points that (for all or some
inputs) feed `increment_msg_total`. -/
def StatsOp.isClassification : StatsOp → Bool
  | StatsOp.count_request _ => true
  | StatsOp.count_response _ => true
  | StatsOp.count_routing_message _ => true
  | StatsOp.count_direct_message _ => true
  | _ => false

/-- Fragment-skip calls: `count_routing_message` on a `UserMessagePart`. -/
def StatsOp.isFragmentSkip : StatsOp → Bool
  | StatsOp.count_routing_message msg => msg.content == MessageContent.UserMessagePart
  | _ => false

/-- Calls that increment the aggregate total: classification calls that are
not the fragment-skip case. -/
def StatsOp.countsTowardTotal (op : StatsOp) : Bool :=
  op.isClassification && !op.isFragmentSkip

/-- Iterate `increment_msg_total` `n` times (one call per classified
message), returning the final state and how many log snapshots the calls
emitted. -/
def Stats.incTimes (s : Stats) : Nat → Stats × Nat
  | 0 => (s, 0)
  | n + 1 =>
      match s.increment_msg_total with
      | (s2, b) =>
          match s2.incTimes n with
          | (s3, k) => (s3, (if b then 1 else 0) + k)

/-- Read-out of the five request buckets named by the spec: get, put, post,
delete, get-account-info (refinement side, stated from the words of the spec for
comparison with `Stats.count_request`). -/
def Stats.fiveRequestBuckets (s : Stats) : List Nat :=
  [s.msg_get, s.msg_put, s.msg_post, s.msg_delete, s.msg_get_account_info]

/-- Read-out of the six per-kind request counters the code actually
maintains, in the order of the match arms of `Stats::count_request`. -/
def Stats.requestCounters (s : Stats) : List Nat :=
  [s.msg_refresh, s.msg_get, s.msg_put, s.msg_post, s.msg_delete,
   s.msg_get_account_info]

/-- The index of the request counter bumped by `Stats::count_request`,
within `Stats.requestCounters`. -/
def Request.bucketIdx : Request → Nat
  | Request.Refresh => 0
  | Request.Get => 1
  | Request.Put => 2
  | Request.Post => 3
  | Request.Delete => 4
  | Request.GetAccountInfo => 5

/-- Read-out of the ten per-kind response counters, in the order of the
match arms of `Stats::count_response`. -/
def Stats.responseCounters (s : Stats) : List Nat :=
  [s.msg_get_success, s.msg_get_failure, s.msg_put_success, s.msg_put_failure,
   s.msg_post_success, s.msg_post_failure, s.msg_delete_success,
   s.msg_delete_failure, s.msg_get_account_info_success,
   s.msg_get_account_info_failure]

/-- The index of the response counter bumped by `Stats::count_response`,
within `Stats.responseCounters`. -/
def Response.bucketIdx : Response → Nat
  | Response.GetSuccess => 0
  | Response.GetFailure => 1
  | Response.PutSuccess => 2
  | Response.PutFailure => 3
  | Response.PostSuccess => 4
  | Response.PostFailure => 5
  | Response.DeleteSuccess => 6
  | Response.DeleteFailure => 7
  | Response.GetAccountInfoSuccess => 8
  | Response.GetAccountInfoFailure => 9

/-- Increment the entry of `l` at position `i` by one. -/
def bumpAt (l : List Nat) (i : Nat) : List Nat :=
  l.set i (l.getD i 0 + 1)

/-- All scalar counter fields of a `Stats`, in declaration order (every
field except the `routes` array). -/
def Stats.toCounters (s : Stats) : List Nat :=
  [s.cur_routing_table_size, s.cur_client_num, s.cumulative_client_num,
   s.tunnel_client_pairs, s.tunnel_connections, s.unacked_msgs,
   s.msg_direct_node_identify, s.msg_direct_new_node,
   s.msg_direct_connection_unneeded, s.msg_get, s.msg_put, s.msg_post,
   s.msg_delete, s.msg_get_account_info, s.msg_get_close_group,
   s.msg_get_node_name, s.msg_expect_close_node, s.msg_refresh,
   s.msg_connection_info, s.msg_get_success, s.msg_get_failure,
   s.msg_put_success, s.msg_put_failure, s.msg_post_success,
   s.msg_post_failure, s.msg_delete_success, s.msg_delete_failure,
   s.msg_get_account_info_success, s.msg_get_account_info_failure,
   s.msg_get_close_group_rsp, s.msg_get_node_name_rsp, s.msg_ack, s.msg_hash,
   s.msg_other, s.msg_total, s.msg_total_bytes]

/-- Every counter field of one `Stats` is at most the corresponding field of
the other: the route array slot by slot, and every scalar field via
`Stats.toCounters`. -/
def Stats.le (a b : Stats) : Prop :=
  List.Forall₂ (· ≤ ·) a.routes b.routes ∧
  List.Forall₂ (· ≤ ·) a.toCounters b.toCounters

/-! Theorems -/

theorem Context.run_into_commands (ops : List ContextOp) :
    ∀ (ctx : Context) (tok : Nat),
      ((ctx.run tok ops).1).into_commands
        = ctx.into_commands ++ expectedCommands tok ops := by
  induction ops with
  | nil =>
      intro ctx tok
      simp [Context.run, expectedCommands]
  | cons op ops ih =>
      intro ctx tok
      cases op with
      | push_command c =>
          simp only [Context.run]
          rw [ih]
          simp [Context.push_command, Context.into_commands, expectedCommands]
      | send_message_to_target r m =>
          simp only [Context.run, Context.send_message_to_target,
            Context.send_message_to_targets]
          rw [ih]
          simp [Context.push_command, Context.into_commands, expectedCommands]
      | send_message_to_targets rs n m =>
          simp only [Context.run, Context.send_message_to_targets]
          rw [ih]
          simp [Context.push_command, Context.into_commands, expectedCommands]
      | schedule_timeout d =>
          simp only [Context.run, Context.schedule_timeout]
          rw [ih]
          simp [Context.push_command, Context.into_commands, expectedCommands]

theorem expectedCommands_length (ops : List ContextOp) :
    ∀ tok : Nat, (expectedCommands tok ops).length = ops.length := by
  induction ops with
  | nil => intro tok; simp [expectedCommands]
  | cons op ops ih => intro tok; cases op <;> simp [expectedCommands, ih]

/-- C3: on a fresh `Context`, any sequence of `push_command` /
`send_message_to_target` / `send_message_to_targets` / `schedule_timeout`
calls makes `into_commands` return exactly the pushed commands, one per
call, in call order — no deduplication, dropping or reordering. -/
theorem into_commands_queue_fidelity (tok : Nat) (ops : List ContextOp) :
    ((Context.new.run tok ops).1).into_commands = expectedCommands tok ops ∧
    (expectedCommands tok ops).length = ops.length := by
  refine ⟨?_, expectedCommands_length ops tok⟩
  simpa [Context.new, Context.into_commands] using
    Context.run_into_commands ops Context.new tok

/-- C4: `send_message_to_target(r, m)` produces exactly the state that
`send_message_to_targets([r], 1, m)` produces, and the appended command is
`SendMessage` with recipients `[r]`, delivery group size 1 and message `m` —
so the two call sequences have identical `into_commands` results. -/
theorem send_message_to_target_shorthand (ctx : Context) (r : SocketAddr)
    (m : Bytes) :
    ctx.send_message_to_target r m = ctx.send_message_to_targets [r] 1 m ∧
    (ctx.send_message_to_target r m).into_commands
      = ctx.into_commands ++ [Command.SendMessage [r] 1 m] := by
  exact ⟨rfl, rfl⟩

theorem map_range_add_getD (tok n i : Nat) (h : i < n) :
    ((List.range n).map (tok + ·)).getD i 0 = tok + i := by
  simp [List.getD_eq_getElem?_getD, List.getElem?_map, List.getElem?_range, h]

theorem map_add_range_succ (tok n : Nat) :
    (List.range (n + 1)).map (tok + ·) = tok :: (List.range n).map (tok + 1 + ·) := by
  simp only [List.range_succ_eq_map, List.map_cons, List.map_map, Nat.add_zero]
  refine congrArg _ (List.map_congr_left ?_)
  intro i _
  simp [Function.comp]
  omega

theorem Context.runTimeouts_eq (ds : List Duration) :
    ∀ (ctx : Context) (tok : Nat),
      ctx.runTimeouts tok ds
        = ({ command_queue := ctx.command_queue ++
              List.zipWith Command.ScheduleTimeout ds
                ((List.range ds.length).map (tok + ·)) },
           tok + ds.length,
           (List.range ds.length).map (tok + ·)) := by
  induction ds with
  | nil =>
      intro ctx tok
      simp [Context.runTimeouts]
  | cons d ds ih =>
      intro ctx tok
      simp only [Context.runTimeouts, Context.schedule_timeout,
        Context.push_command, ih, List.length_cons, map_add_range_succ,
        List.zipWith_cons_cons]
      simp [Prod.mk.injEq, Context.mk.injEq, List.append_assoc]
      omega

/-- C5: `schedule_timeout(d)` draws the next allocator token, appends
exactly one `ScheduleTimeout` command carrying that token and `d`, and
returns the token; a sequence of such calls on one fresh `Context` pushes
the commands in call order, the duration of each command matching its call,
and the returned tokens are `tok, tok+1, tok+2, ...` — strictly increasing,
each exactly one greater than the previous. -/
theorem schedule_timeout_tokens (ctx : Context) (tok : Nat) (d : Duration)
    (ds : List Duration) :
    ctx.schedule_timeout tok d
      = (ctx.push_command (Command.ScheduleTimeout d tok), tok + 1, tok) ∧
    Context.new.runTimeouts tok ds
      = ({ command_queue := List.zipWith Command.ScheduleTimeout ds
            ((List.range ds.length).map (tok + ·)) },
         tok + ds.length,
         (List.range ds.length).map (tok + ·)) ∧
    ∀ i, i + 1 < ds.length →
      ((Context.new.runTimeouts tok ds).2.2).getD (i + 1) 0
        = ((Context.new.runTimeouts tok ds).2.2).getD i 0 + 1 := by
  refine ⟨rfl, ?_, ?_⟩
  · simpa [Context.new] using Context.runTimeouts_eq ds Context.new tok
  · intro i hi
    rw [Context.runTimeouts_eq ds Context.new tok]
    rw [map_range_add_getD tok ds.length (i + 1) hi,
      map_range_add_getD tok ds.length i (by omega)]
    omega

/-- C5 witness: three timeouts with durations 100 ms, 200 ms, 50 ms from a
fresh `Context` and allocator state 0. -/
theorem schedule_timeout_tokens_witness :
    Context.new.schedule_timeout 0 (Duration.mk 100)
      = (Context.new.push_command
          (Command.ScheduleTimeout (Duration.mk 100) 0), 1, 0) ∧
    ((Context.new.runTimeouts 0
        [Duration.mk 100, Duration.mk 200, Duration.mk 50]).2.2).getD 1 0
      = ((Context.new.runTimeouts 0
          [Duration.mk 100, Duration.mk 200, Duration.mk 50]).2.2).getD 0 0
        + 1 := by
  have h := schedule_timeout_tokens Context.new 0 (Duration.mk 100)
    [Duration.mk 100, Duration.mk 200, Duration.mk 50]
  exact ⟨h.1, h.2.2 0 (by decide)⟩

/-- C6: `count_routing_message` on a message whose content is
`UserMessagePart` leaves every field of `Stats` unchanged and cannot emit a
log snapshot (the early `return` never reaches `increment_msg_total`). -/
theorem count_routing_message_fragment_skip (s : Stats) (msg : RoutingMessage)
    (h : msg.content = MessageContent.UserMessagePart) :
    s.count_routing_message msg = (s, false) := by
  obtain ⟨content⟩ := msg
  cases content <;> simp_all [Stats.count_routing_message]

/-- C6 witness: the fragment skip on a fresh `Stats` with group size 8. -/
theorem count_routing_message_fragment_skip_witness :
    (Stats.mkDefault 8).count_routing_message
        (RoutingMessage.mk MessageContent.UserMessagePart)
      = (Stats.mkDefault 8, false) :=
  count_routing_message_fragment_skip (Stats.mkDefault 8)
    (RoutingMessage.mk MessageContent.UserMessagePart) rfl

theorem Stats.incTimes_snd (n : Nat) :
    ∀ s : Stats, (s.incTimes n).2
      = (s.msg_total + n) / MSG_LOG_COUNT - s.msg_total / MSG_LOG_COUNT := by
  induction n with
  | zero =>
      intro s
      simp [Stats.incTimes]
  | succ n ih =>
      intro s
      have h := ih { s with msg_total := s.msg_total + 1 }
      simp only [Stats.incTimes, Stats.increment_msg_total] at h ⊢
      rw [h]
      simp only [MSG_LOG_COUNT] at *
      rcases eq_or_ne ((s.msg_total + 1) % 500) 0 with h0 | h0 <;>
        simp [h0] <;> omega

/-- C7: `increment_msg_total` emits the log snapshot exactly when the
incremented aggregate total is an exact multiple of `MSG_LOG_COUNT` (500);
the call changes no field other than incrementing `msg_total` (nothing is
reset); and from any state just after a snapshot boundary, 500 further
classified messages emit exactly one snapshot while 499 emit none. -/
theorem increment_msg_total_snapshot (s : Stats) :
    ((s.increment_msg_total).2 = true ↔ (s.msg_total + 1) % MSG_LOG_COUNT = 0) ∧
    (s.increment_msg_total).1 = { s with msg_total := s.msg_total + 1 } ∧
    (s.msg_total % MSG_LOG_COUNT = 0 →
      (s.incTimes 500).2 = 1 ∧ (s.incTimes 499).2 = 0) := by
  refine ⟨?_, rfl, ?_⟩
  · simp [Stats.increment_msg_total]
  · intro h
    rw [Stats.incTimes_snd, Stats.incTimes_snd]
    simp only [MSG_LOG_COUNT] at *
    omega

/-- C7 witness: from a fresh `Stats`, 500 classified messages emit exactly
one snapshot and 499 emit none; the first increment emits nothing. -/
theorem increment_msg_total_snapshot_witness :
    ((Stats.mkDefault 0).incTimes 500).2 = 1 ∧
    ((Stats.mkDefault 0).incTimes 499).2 = 0 := by
  have h := increment_msg_total_snapshot (Stats.mkDefault 0)
  exact h.2.2 (by decide)

/-- C8: `count_route k` with `k` at or beyond the route-array length is a
no-op on the whole `Stats` state (out-of-range routes are only logged,
never a crash or out-of-bounds access — the Lean model is total); with `k`
in range it increments exactly the slot at index `k`, every other field
untouched. -/
theorem count_route_bounds (s : Stats) (k : Nat) :
    (s.routes.length ≤ k → s.count_route k = s) ∧
    (k < s.routes.length →
      s.count_route k
        = { s with routes := s.routes.set k (s.routes.getD k 0 + 1) }) := by
  constructor
  · intro h
    unfold Stats.count_route
    rw [List.getElem?_eq_none h]
  · intro h
    unfold Stats.count_route
    rw [List.getElem?_eq_getElem h]
    simp [List.getD_eq_getElem?_getD, List.getElem?_eq_getElem h]

/-- C8 witness: on a fresh `Stats` with group size 8, route 9 is a no-op
and route 3 increments exactly slot 3. -/
theorem count_route_bounds_witness :
    (Stats.mkDefault 8).count_route 9 = Stats.mkDefault 8 ∧
    (Stats.mkDefault 8).count_route 3
      = { Stats.mkDefault 8 with
          routes := (Stats.mkDefault 8).routes.set 3
            ((Stats.mkDefault 8).routes.getD 3 0 + 1) } :=
  ⟨(count_route_bounds (Stats.mkDefault 8) 9).1 (by decide),
   (count_route_bounds (Stats.mkDefault 8) 3).2 (by decide)⟩

/-- C10: `count_unacked`, `count_route` (any argument) and `count_bytes`
each touch only their own field — the unacknowledged counter, a route slot,
the cumulative byte counter — leaving every other field (in particular
`msg_total`) unchanged, and none of them can emit the periodic log
snapshot. -/
theorem count_non_classification_frame (s : Stats) (k len : Nat) :
    s.count_unacked = { s with unacked_msgs := s.unacked_msgs + 1 } ∧
    s.count_bytes len = { s with msg_total_bytes := s.msg_total_bytes + len } ∧
    s.count_route k = { s with routes := (s.count_route k).routes } ∧
    (s.apply StatsOp.count_unacked).2 = false ∧
    (s.apply (StatsOp.count_route k)).2 = false ∧
    (s.apply (StatsOp.count_bytes len)).2 = false := by
  refine ⟨rfl, rfl, ?_, rfl, rfl, rfl⟩
  rcases h : s.routes[k]? with _ | c <;> simp [Stats.count_route, h]

/-- C2 counterexample: `count_request` on a `Refresh` request puts it in
none of the five buckets the claim allows (get, put, post, delete,
get-account-info stay untouched) — it lands in the sixth, `msg_refresh` —
while still incrementing the aggregate total. -/
theorem count_request_refresh_not_five_buckets :
    ((Stats.mkDefault 8).count_request Request.Refresh).1.fiveRequestBuckets.sum
        = (Stats.mkDefault 8).fiveRequestBuckets.sum ∧
    ((Stats.mkDefault 8).count_request Request.Refresh).1.msg_refresh = 1 ∧
    ((Stats.mkDefault 8).count_request Request.Refresh).1.msg_total = 1 ∧
    ¬ (((Stats.mkDefault 8).count_request Request.Refresh).1.fiveRequestBuckets.sum
        = (Stats.mkDefault 8).fiveRequestBuckets.sum + 1) := by
  decide

/-- C2 (amended): every `count_request` call classifies the request into
exactly one of SIX operation-kind buckets — refresh, get, put, post,
delete, get-account-info — and every `count_response` call into exactly one
of the ten buckets crossing the five user-data kinds with success/failure;
in both cases exactly one matching per-kind counter and the aggregate total
are incremented. -/
theorem count_request_response_exactly_one_bucket (s : Stats) (r : Request)
    (p : Response) :
    (s.count_request r).1.requestCounters = bumpAt s.requestCounters r.bucketIdx ∧
    (s.count_request r).1.msg_total = s.msg_total + 1 ∧
    (s.count_response p).1.responseCounters
      = bumpAt s.responseCounters p.bucketIdx ∧
    (s.count_response p).1.msg_total = s.msg_total + 1 := by
  refine ⟨?_, ?_, ?_, ?_⟩
  · cases r <;>
      simp [Stats.count_request, Stats.increment_msg_total,
        Stats.requestCounters, Request.bucketIdx, bumpAt, List.set, List.getD]
  · cases r <;> rfl
  · cases p <;>
      simp [Stats.count_response, Stats.increment_msg_total,
        Stats.responseCounters, Response.bucketIdx, bumpAt, List.set, List.getD]
  · cases p <;> rfl

theorem Stats.apply_msg_total (s : Stats) (op : StatsOp) :
    (s.apply op).1.msg_total
      = s.msg_total + (if op.countsTowardTotal then 1 else 0) := by
  cases op with
  | count_unacked =>
      simp [Stats.apply, Stats.count_unacked, StatsOp.countsTowardTotal,
        StatsOp.isClassification, StatsOp.isFragmentSkip]
  | count_route k =>
      rcases h : s.routes[k]? with _ | c <;>
        simp [Stats.apply, Stats.count_route, h, StatsOp.countsTowardTotal,
          StatsOp.isClassification, StatsOp.isFragmentSkip]
  | count_request r =>
      cases r <;>
        simp [Stats.apply, Stats.count_request, Stats.increment_msg_total,
          StatsOp.countsTowardTotal, StatsOp.isClassification,
          StatsOp.isFragmentSkip]
  | count_response p =>
      cases p <;>
        simp [Stats.apply, Stats.count_response, Stats.increment_msg_total,
          StatsOp.countsTowardTotal, StatsOp.isClassification,
          StatsOp.isFragmentSkip]
  | count_routing_message m =>
      obtain ⟨content⟩ := m
      cases content <;>
        simp [Stats.apply, Stats.count_routing_message,
          Stats.increment_msg_total, StatsOp.countsTowardTotal,
          StatsOp.isClassification, StatsOp.isFragmentSkip]
  | count_direct_message dm =>
      cases dm <;>
        simp [Stats.apply, Stats.count_direct_message,
          Stats.increment_msg_total, StatsOp.countsTowardTotal,
          StatsOp.isClassification, StatsOp.isFragmentSkip]
  | count_bytes n =>
      simp [Stats.apply, Stats.count_bytes, StatsOp.countsTowardTotal,
        StatsOp.isClassification, StatsOp.isFragmentSkip]

theorem Stats.run_msg_total (ops : List StatsOp) :
    ∀ s : Stats,
      (s.run ops).msg_total
        = s.msg_total + ops.countP (·.countsTowardTotal) := by
  induction ops with
  | nil =>
      intro s
      simp [Stats.run]
  | cons op ops ih =>
      intro s
      simp only [Stats.run, List.countP_cons]
      rw [ih, Stats.apply_msg_total]
      cases h : op.countsTowardTotal
      · simp [h]
      · simp [h]
        omega

theorem countP_countsTowardTotal_add_fragmentSkip (ops : List StatsOp) :
    ops.countP (·.countsTowardTotal) + ops.countP (·.isFragmentSkip)
      = ops.countP (·.isClassification) := by
  induction ops with
  | nil => simp
  | cons op ops ih =>
      simp only [List.countP_cons]
      have h : (if op.countsTowardTotal = true then 1 else 0)
            + (if op.isFragmentSkip = true then 1 else 0)
          = (if op.isClassification = true then 1 else 0) := by
        cases op with
        | count_routing_message m =>
            obtain ⟨content⟩ := m
            cases content <;>
              simp [StatsOp.countsTowardTotal, StatsOp.isClassification,
                StatsOp.isFragmentSkip]
        | _ =>
            simp [StatsOp.countsTowardTotal, StatsOp.isClassification,
              StatsOp.isFragmentSkip]
      omega

/-- C1: starting from a fresh `Stats`, after any sequence of counting calls
the aggregate `msg_total` equals the number of calls to the four
classification entry points (`count_request`, `count_response`,
`count_routing_message`, `count_direct_message`) minus the number of
`count_routing_message` calls whose argument was a `UserMessagePart`
fragment; `count_unacked`, `count_route` and `count_bytes` never
contribute. -/
theorem stats_msg_total_classification (gs : Nat) (ops : List StatsOp) :
    (Stats.run (Stats.mkDefault gs) ops).msg_total
      = ops.countP (·.isClassification) - ops.countP (·.isFragmentSkip) := by
  have h1 := Stats.run_msg_total ops (Stats.mkDefault gs)
  have h2 := countP_countsTowardTotal_add_fragmentSkip ops
  have h0 : (Stats.mkDefault gs).msg_total = 0 := rfl
  omega

theorem forall2_le_refl (l : List Nat) : List.Forall₂ (· ≤ ·) l l := by
  induction l with
  | nil => exact List.Forall₂.nil
  | cons a t ih => exact List.Forall₂.cons (Nat.le_refl a) ih

theorem forall2_le_trans {a b c : List Nat}
    (h1 : List.Forall₂ (· ≤ ·) a b) (h2 : List.Forall₂ (· ≤ ·) b c) :
    List.Forall₂ (· ≤ ·) a c := by
  induction h1 generalizing c with
  | nil =>
      cases h2
      exact List.Forall₂.nil
  | cons hab t ih =>
      cases h2 with
      | cons hbc h2t => exact List.Forall₂.cons (Nat.le_trans hab hbc) (ih h2t)

theorem forall2_le_set (l : List Nat) (k c : Nat) (h : l[k]? = some c) :
    List.Forall₂ (· ≤ ·) l (l.set k (c + 1)) := by
  induction l generalizing k with
  | nil => simp at h
  | cons a t ih =>
      cases k with
      | zero =>
          simp only [List.getElem?_cons_zero, Option.some.injEq] at h
          subst h
          exact List.Forall₂.cons (Nat.le_succ a) (forall2_le_refl t)
      | succ k =>
          simp only [List.getElem?_cons_succ] at h
          exact List.Forall₂.cons (Nat.le_refl a) (ih k h)

theorem Stats.le_refl (s : Stats) : s.le s :=
  ⟨forall2_le_refl s.routes, forall2_le_refl s.toCounters⟩

theorem Stats.le_trans {a b c : Stats} (h1 : a.le b) (h2 : b.le c) :
    a.le c :=
  ⟨forall2_le_trans h1.1 h2.1, forall2_le_trans h1.2 h2.2⟩

theorem Stats.apply_le (s : Stats) (op : StatsOp) : s.le (s.apply op).1 := by
  cases op with
  | count_unacked =>
      refine ⟨forall2_le_refl _, ?_⟩
      simp [Stats.apply, Stats.count_unacked, Stats.toCounters,
        List.forall₂_cons, forall2_le_refl]
  | count_route k =>
      rcases h : s.routes[k]? with _ | c
      · refine ⟨?_, ?_⟩ <;>
          simp [Stats.apply, Stats.count_route, h, forall2_le_refl]
      · refine ⟨?_, ?_⟩
        · simpa [Stats.apply, Stats.count_route, h] using
            forall2_le_set s.routes k c h
        · simp [Stats.apply, Stats.count_route, h, Stats.toCounters,
            forall2_le_refl]
  | count_request r =>
      refine ⟨?_, ?_⟩
      · cases r <;> simp [Stats.apply, Stats.count_request,
          Stats.increment_msg_total, forall2_le_refl]
      · cases r <;>
          simp [Stats.apply, Stats.count_request, Stats.increment_msg_total,
            Stats.toCounters, List.forall₂_cons, forall2_le_refl]
  | count_response p =>
      refine ⟨?_, ?_⟩
      · cases p <;> simp [Stats.apply, Stats.count_response,
          Stats.increment_msg_total, forall2_le_refl]
      · cases p <;>
          simp [Stats.apply, Stats.count_response, Stats.increment_msg_total,
            Stats.toCounters, List.forall₂_cons, forall2_le_refl]
  | count_routing_message m =>
      obtain ⟨content⟩ := m
      refine ⟨?_, ?_⟩
      · cases content <;> simp [Stats.apply, Stats.count_routing_message,
          Stats.increment_msg_total, forall2_le_refl]
      · cases content <;>
          simp [Stats.apply, Stats.count_routing_message,
            Stats.increment_msg_total, Stats.toCounters, List.forall₂_cons,
            forall2_le_refl]
  | count_direct_message dm =>
      refine ⟨?_, ?_⟩
      · cases dm <;> simp [Stats.apply, Stats.count_direct_message,
          Stats.increment_msg_total, forall2_le_refl]
      · cases dm <;>
          simp [Stats.apply, Stats.count_direct_message,
            Stats.increment_msg_total, Stats.toCounters, List.forall₂_cons,
            forall2_le_refl]
  | count_bytes n =>
      refine ⟨forall2_le_refl _, ?_⟩
      simp [Stats.apply, Stats.count_bytes, Stats.toCounters,
        List.forall₂_cons, forall2_le_refl]

/-- C9: along any sequence of counting calls, every counter field of
`Stats` (each route slot and every scalar counter, the byte total
included) is monotonically non-decreasing: no call resets or decrements
anything. -/
theorem stats_run_monotone (s : Stats) (ops : List StatsOp) :
    s.le (s.run ops) := by
  induction ops generalizing s with
  | nil => exact Stats.le_refl s
  | cons op ops ih =>
      exact Stats.le_trans (Stats.apply_le s op) (ih (s.apply op).1)
